import Mathlib

/-!
Verification of the `uart16550` driver: a shallow embedding of the
register model, the configuration accessors (`src/lib.rs`) and the
blocking transport primitives (`src/blocking.rs`), together with proofs
of the specification's claims about them.

The crate's `register` module (the typed bit-field codecs) is not part
of the provided sources; its definitions below are modelled from the
specification's description of the register layout (§3, §4.1, §6).
Everything else is transcribed from `src/lib.rs` and `src/blocking.rs`.
-/

namespace Uart16550

/-- Modelled from the spec: the `register` module's parity-select flag
(odd/even), exposed by the line-control codec. -/
inductive Parity where
  | Odd
  | Even
  deriving DecidableEq, Repr

/-- Stop-bit setting (one stop bit, or the extended word-length-dependent
count); variant names follow `StopBits::Bit1` used in `src/lib.rs`. -/
inductive StopBits where
  | Bit1
  | Bit2
  deriving DecidableEq, Repr

/-- Word length of 5, 6, 7 or 8 data bits; variant names follow
`WordLength::Bits8` used in `src/lib.rs`. -/
inductive WordLength where
  | Bits5
  | Bits6
  | Bits7
  | Bits8
  deriving DecidableEq, Repr

/-- Parity checking modes, from `enum ParityMode` in `src/lib.rs`. -/
inductive ParityMode where
  | None
  | Odd
  | Even
  | High
  | Low
  deriving DecidableEq, Repr

/-- Modelled from the spec: the line-control register as its six
decoded bit fields (word length, stop bits, parity-enable,
parity-select, stick-parity, divisor-latch-access); the codec exposes
each field independently (§3, §4.1). -/
structure Lcr where
  word_length : WordLength
  stop_bits : StopBits
  parity_enabled : Bool
  parity : Parity
  stick_parity : Bool
  divisor_latch_access : Bool
  deriving DecidableEq, Repr

namespace Lcr

/-- Modelled from the spec: set the divisor-latch-access mode bit,
leaving every other line-control field unchanged. -/
def enable_divisor_latch_access (lcr : Lcr) : Lcr :=
  { lcr with divisor_latch_access := true }

/-- Modelled from the spec: clear the parity-enable flag only. -/
def disable_parity (lcr : Lcr) : Lcr :=
  { lcr with parity_enabled := false }

/-- Modelled from the spec: set the parity-enable flag only. -/
def enable_parity (lcr : Lcr) : Lcr :=
  { lcr with parity_enabled := true }

/-- Modelled from the spec: set the stick-parity flag only. -/
def enable_stick_parity (lcr : Lcr) : Lcr :=
  { lcr with stick_parity := true }

/-- Modelled from the spec: clear the stick-parity flag only. -/
def disable_stick_parity (lcr : Lcr) : Lcr :=
  { lcr with stick_parity := false }

/-- Modelled from the spec: set the parity-select field only. -/
def set_parity (lcr : Lcr) (p : Parity) : Lcr :=
  { lcr with parity := p }

/-- Modelled from the spec: set the stop-bit field only. -/
def set_stop_bits (lcr : Lcr) (s : StopBits) : Lcr :=
  { lcr with stop_bits := s }

/-- Modelled from the spec: set the word-length field only. -/
def set_word_length (lcr : Lcr) (w : WordLength) : Lcr :=
  { lcr with word_length := w }

/-- Modelled from the spec: read the parity-enable flag. -/
def is_parity_enabled (lcr : Lcr) : Bool := lcr.parity_enabled

/-- Modelled from the spec: read the stick-parity flag. -/
def is_stick_parity_enabled (lcr : Lcr) : Bool := lcr.stick_parity

end Lcr

/-- Modelled from the spec: the register block state visible to the
configuration accessors: the line-control register, the two divisor
latch bytes behind the multiplexed registers, the interrupt-enable
byte (register B's primary role), the pending received bytes (register
A's primary read role) and the bytes enqueued for transmission
(register A's primary write role). -/
structure UartState where
  lcr : Lcr
  dll : Nat
  dlh : Nat
  ier : Nat
  rx : List Nat
  tx : List Nat
  deriving DecidableEq, Repr

/-- Modelled from the spec: reading multiplexed register A
(`rbr_thr_dll`): with divisor-latch-access set it yields the divisor
low byte; otherwise it consumes the next received byte (§3, §6). -/
def regA_read (s : UartState) : Nat × UartState :=
  if s.lcr.divisor_latch_access then (s.dll, s)
  else (s.rx.headD 0, { s with rx := s.rx.tail })

/-- Modelled from the spec: writing multiplexed register A: with
divisor-latch-access set it stores the divisor low byte; otherwise it
enqueues a byte for transmission (§3, §6). -/
def regA_write (b : Nat) (s : UartState) : UartState :=
  if s.lcr.divisor_latch_access then { s with dll := b }
  else { s with tx := s.tx ++ [b] }

/-- Modelled from the spec: reading multiplexed register B
(`ier_dlh`): the divisor high byte when divisor-latch-access is set,
the interrupt-enable byte otherwise (§3, §6). -/
def regB_read (s : UartState) : Nat :=
  if s.lcr.divisor_latch_access then s.dlh else s.ier

/-- Modelled from the spec: writing multiplexed register B: the divisor
high byte when divisor-latch-access is set, the interrupt-enable byte
otherwise (§3, §6). -/
def regB_write (b : Nat) (s : UartState) : UartState :=
  if s.lcr.divisor_latch_access then { s with dlh := b }
  else { s with ier := b }

/-- Low byte of `u16::to_le_bytes`. -/
def u16_low (d : Nat) : Nat := d % 256

/-- High byte of `u16::to_le_bytes`. -/
def u16_high (d : Nat) : Nat := d / 256 % 256

/-- Combination `u16::from_le_bytes([lo, hi])`. -/
def u16_from_le_bytes (lo hi : Nat) : Nat := lo + 256 * hi

/-- Embedding of `divisor` (`src/lib.rs:93-101`): read line-control,
write it back with divisor-latch-access enabled, read the low byte from
register A and the high byte from register B, and combine them
little-endian.  Returns the value together with the final state. -/
def divisor (s : UartState) : Nat × UartState :=
  let lcr := s.lcr
  let s1 : UartState := { s with lcr := lcr.enable_divisor_latch_access }
  let (dll, s2) := regA_read s1
  let dlh := regB_read s2
  (u16_from_le_bytes dll dlh, s2)

/-- Embedding of `set_divisor` (`src/lib.rs:104-123`): read
line-control, split the divisor into little-endian bytes, enable
divisor-latch-access, read-modify-write each divisor byte through the
multiplexed registers, then write back the originally read line-control
value. -/
def set_divisor (s : UartState) (d : Nat) : UartState :=
  let lcr := s.lcr
  let divisor_low := u16_low d
  let divisor_high := u16_high d
  let s1 : UartState := { s with lcr := lcr.enable_divisor_latch_access }
  let (_a, s2) := regA_read s1
  let dll := divisor_low
  let dlh := divisor_high
  let s3 := regA_write dll s2
  let s4 := regB_write dlh s3
  { s4 with lcr := lcr }

/-- Embedding of `parity_mode` (`src/lib.rs:126-140`): decode the
5-way parity mode from the three line-control flags. -/
def parity_mode (s : UartState) : ParityMode :=
  let lcr := s.lcr
  match lcr.is_parity_enabled, lcr.parity, lcr.is_stick_parity_enabled with
  | false, _, _ => ParityMode.None
  | true, Parity.Even, false => ParityMode.Even
  | true, Parity.Odd, false => ParityMode.Odd
  | true, Parity.Odd, true => ParityMode.High
  | true, Parity.Even, true => ParityMode.Low

/-- Embedding of `set_parity_mode` (`src/lib.rs:143-167`): rewrite
line-control with the three parity flags encoding the requested mode;
for `None` only the parity-enable flag is cleared. -/
def set_parity_mode (s : UartState) (parity : ParityMode) : UartState :=
  let lcr := s.lcr
  let lcr := match parity with
    | ParityMode.None => lcr.disable_parity
    | ParityMode.Odd =>
        ((lcr.enable_parity).disable_stick_parity).set_parity Parity.Odd
    | ParityMode.Even =>
        ((lcr.enable_parity).disable_stick_parity).set_parity Parity.Even
    | ParityMode.High =>
        ((lcr.enable_parity).enable_stick_parity).set_parity Parity.Odd
    | ParityMode.Low =>
        ((lcr.enable_parity).enable_stick_parity).set_parity Parity.Even
  { s with lcr := lcr }

/-- Embedding of `stop_bits` (`src/lib.rs:170-172`). -/
def stop_bits (s : UartState) : StopBits :=
  s.lcr.stop_bits

/-- Embedding of `set_stop_bits` (`src/lib.rs:175-180`). -/
def set_stop_bits (s : UartState) (sb : StopBits) : UartState :=
  { s with lcr := s.lcr.set_stop_bits sb }

/-- Embedding of `word_length` (`src/lib.rs:183-185`). -/
def word_length (s : UartState) : WordLength :=
  s.lcr.word_length

/-- Embedding of `set_word_length` (`src/lib.rs:188-193`). -/
def set_word_length (s : UartState) (wl : WordLength) : UartState :=
  { s with lcr := s.lcr.set_word_length wl }

/-- Embedding of `blocking_read` (`src/blocking.rs:17-28`).  The line
status register is a read-only observation stream, modelled by the
oracle `ready i` (the data-ready flag returned by the i-th poll) and
`rx i` (the byte register A delivers after the i-th poll).  For each
buffer slot in order: poll data-ready once; if set, overwrite the slot
with the delivered byte and continue, otherwise stop.  Returns the
final buffer contents, the count of slots filled, and the number of
line-status polls performed. -/
def blocking_read (ready : Nat → Bool) (rx : Nat → Nat) :
    Nat → List Nat → List Nat × Nat × Nat
  | _, [] => ([], 0, 0)
  | i, ch :: rest =>
      if ready i then
        let r := blocking_read ready rx (i + 1) rest
        (rx i :: r.1, r.2.1 + 1, r.2.2 + 1)
      else
        (ch :: rest, 0, 1)

/-- Embedding of `blocking_write` (`src/blocking.rs:35-49`), gated on
the transmit-holding-empty flag `thre i` of the i-th line-status poll.
For each source byte in order: poll once; if the flag is set, write the
byte to register A and continue, otherwise stop.  Returns the sequence
of bytes written to register A, the count written, and the number of
line-status polls performed. -/
def blocking_write (thre : Nat → Bool) :
    Nat → List Nat → List Nat × Nat × Nat
  | _, [] => ([], 0, 0)
  | i, ch :: rest =>
      if thre i then
        let r := blocking_write thre (i + 1) rest
        (ch :: r.1, r.2.1 + 1, r.2.2 + 1)
      else
        ([], 0, 1)

/-- Embedding of `blocking_flash` (`src/blocking.rs:54-58`): spin until
the transmit-empty flag `te i` of the i-th line-status poll is
observed true.  The loop may not terminate, so the embedding carries
fuel (a bound on the number of further polls): `some p` means the loop
exited after `p` polls in total, `none` that the fuel ran out with the
flag still false.  No register is written on any path. -/
def blocking_flash (te : Nat → Bool) : Nat → Nat → Option Nat
  | 0, _ => none
  | fuel + 1, i => if te i then some (i + 1) else blocking_flash te fuel (i + 1)

/-- Configuration struct from `src/lib.rs:24-33`.  The `divisor` field
is declared as a plain `u16` there, but `BlockingUart::new` and
`BlockingUart::config` (`src/blocking.rs:73,87`) pattern-match it as an
`Option<u16>`, which is also what the specification's data model states
(divisor: optional 16-bit value); the option form used by the blocking
facade is embedded here. -/
structure Config where
  divisor : Option Nat
  parity_mode : ParityMode
  stop_bits : StopBits
  word_length : WordLength
  deriving DecidableEq, Repr

namespace BlockingUart

/-- Embedding of `BlockingUart::new` (`src/blocking.rs:72-81`): apply
the divisor if one was supplied, then parity mode, then stop bits, then
word length, each through the corresponding accessor of `src/lib.rs`. -/
def new (s : UartState) (config : Config) : UartState :=
  let s1 := match config.divisor with
    | some d => set_divisor s d
    | none => s
  let s2 := set_parity_mode s1 config.parity_mode
  let s3 := set_stop_bits s2 config.stop_bits
  set_word_length s3 config.word_length

end BlockingUart

/-- C1: `divisor` does not restore the line-control value it saved: for
every initial register state, after it returns the divisor-latch-access
bit of the line-control register is enabled, regardless of its value
before the call. -/
theorem divisor_leaves_latch_access_enabled (s : UartState) :
    ((divisor s).2).lcr.divisor_latch_access = true := by
  simp [divisor, regA_read, regB_read, Lcr.enable_divisor_latch_access]

/-- C2: `set_divisor` closes the multiplexed-register critical section:
for every initial state and divisor `d`, afterwards the line-control
register equals exactly its value from before the call, the two divisor
latch bytes hold the little-endian bytes of `d`, and every other state
component (interrupt-enable byte, receive queue, transmit queue) is
unchanged. -/
theorem set_divisor_restores_lcr (s : UartState) (d : Nat) :
    (set_divisor s d).lcr = s.lcr ∧
    (set_divisor s d).dll = u16_low d ∧
    (set_divisor s d).dlh = u16_high d ∧
    (set_divisor s d).ier = s.ier ∧
    (set_divisor s d).rx = s.rx ∧
    (set_divisor s d).tx = s.tx := by
  simp [set_divisor, regA_read, regA_write, regB_write,
    Lcr.enable_divisor_latch_access]

/-- C3: for every 16-bit divisor `d` and every initial register state,
`set_divisor d` followed by `divisor` returns `d`. -/
theorem set_divisor_get_divisor_roundtrip (s : UartState) (d : Nat)
    (h : d < 65536) :
    (divisor (set_divisor s d)).1 = d := by
  simp [divisor, set_divisor, regA_read, regA_write, regB_read, regB_write,
    Lcr.enable_divisor_latch_access, u16_low, u16_high, u16_from_le_bytes]
  omega

/-- Witness for C3 at divisor 4660 and a concrete register state. -/
theorem set_divisor_get_divisor_roundtrip_witness :
    4660 < 65536 ∧
    (divisor (set_divisor
      ⟨⟨WordLength.Bits8, StopBits.Bit1, false, Parity.Even, false, false⟩,
        7, 9, 3, [1, 2], [5]⟩ 4660)).1 = 4660 :=
  ⟨by decide,
    set_divisor_get_divisor_roundtrip
      ⟨⟨WordLength.Bits8, StopBits.Bit1, false, Parity.Even, false, false⟩,
        7, 9, 3, [1, 2], [5]⟩ 4660 (by decide)⟩

/-- C4: for each of the five parity modes and every initial register
state, `set_parity_mode p` followed by `parity_mode` returns `p`. -/
theorem set_parity_mode_roundtrip (s : UartState) (p : ParityMode) :
    parity_mode (set_parity_mode s p) = p := by
  cases p <;> rfl

/-- C5 counterexample: with stick-parity already set in the initial
line-control value, `set_parity_mode ParityMode.None` produces a
line-control value with stick-parity enabled and parity-enable false —
refuting the claim that this combination is never produced for every
initial register state. -/
theorem set_parity_mode_stick_claim_counterexample :
    (set_parity_mode
      ⟨⟨WordLength.Bits8, StopBits.Bit1, true, Parity.Odd, true, false⟩,
        0, 0, 0, [], []⟩ ParityMode.None).lcr.stick_parity = true ∧
    (set_parity_mode
      ⟨⟨WordLength.Bits8, StopBits.Bit1, true, Parity.Odd, true, false⟩,
        0, 0, 0, [], []⟩ ParityMode.None).lcr.parity_enabled = false := by
  decide

/-- C5 amended: for every parity mode other than `None`, and for `None`
whenever stick-parity was not already set, the line-control value
produced by `set_parity_mode` never has stick-parity enabled together
with parity-enable false; for `None` the stick-parity flag is simply
left at its prior value. -/
theorem set_parity_mode_stick_invariant (s : UartState) (p : ParityMode)
    (h : p ≠ ParityMode.None ∨ s.lcr.stick_parity = false) :
    ¬((set_parity_mode s p).lcr.stick_parity = true ∧
      (set_parity_mode s p).lcr.parity_enabled = false) := by
  cases p <;>
    simp_all [set_parity_mode, Lcr.disable_parity, Lcr.enable_parity,
      Lcr.disable_stick_parity, Lcr.enable_stick_parity, Lcr.set_parity]

/-- Witness for the amended C5 at mode `High` and a concrete state. -/
theorem set_parity_mode_stick_invariant_witness :
    (ParityMode.High ≠ ParityMode.None ∨
      (⟨⟨WordLength.Bits5, StopBits.Bit2, false, Parity.Even, true, true⟩,
        0, 0, 0, [], []⟩ : UartState).lcr.stick_parity = false) ∧
    ¬((set_parity_mode
        ⟨⟨WordLength.Bits5, StopBits.Bit2, false, Parity.Even, true, true⟩,
          0, 0, 0, [], []⟩ ParityMode.High).lcr.stick_parity = true ∧
      (set_parity_mode
        ⟨⟨WordLength.Bits5, StopBits.Bit2, false, Parity.Even, true, true⟩,
          0, 0, 0, [], []⟩ ParityMode.High).lcr.parity_enabled = false) :=
  ⟨by decide,
    set_parity_mode_stick_invariant
      ⟨⟨WordLength.Bits5, StopBits.Bit2, false, Parity.Even, true, true⟩,
        0, 0, 0, [], []⟩ ParityMode.High (by decide)⟩

/-- C10: `set_parity_mode` only touches the parity-related flags of
line-control: for every parity mode and every initial register state,
the word length and stop-bit setting reported afterwards equal their
values before the call. -/
theorem set_parity_mode_preserves_framing (s : UartState) (p : ParityMode) :
    word_length (set_parity_mode s p) = word_length s ∧
    stop_bits (set_parity_mode s p) = stop_bits s := by
  cases p <;> exact ⟨rfl, rfl⟩

/-- C9: `BlockingUart::new` applies the configuration in the fixed
order divisor (only if supplied), then parity mode, then stop bits,
then word length: afterwards the parity mode, stop bits and word length
read back from the registers are exactly the configured ones; when a
divisor was supplied the divisor latch bytes hold its little-endian
bytes, and when it was absent both divisor latch bytes are left exactly
as they were before construction. -/
theorem blockingUart_new_spec (s : UartState) (cfg : Config) :
    parity_mode (BlockingUart.new s cfg) = cfg.parity_mode ∧
    stop_bits (BlockingUart.new s cfg) = cfg.stop_bits ∧
    word_length (BlockingUart.new s cfg) = cfg.word_length ∧
    (∀ d, cfg.divisor = some d →
      (BlockingUart.new s cfg).dll = u16_low d ∧
      (BlockingUart.new s cfg).dlh = u16_high d) ∧
    (cfg.divisor = none →
      (BlockingUart.new s cfg).dll = s.dll ∧
      (BlockingUart.new s cfg).dlh = s.dlh) := by
  obtain ⟨dv, p, sb, wl⟩ := cfg
  cases dv <;> cases p <;>
    simp [BlockingUart.new, set_divisor, set_parity_mode, set_stop_bits,
      set_word_length, parity_mode, stop_bits, word_length,
      regA_read, regA_write, regB_write,
      Lcr.enable_divisor_latch_access, Lcr.disable_parity,
      Lcr.enable_parity, Lcr.disable_stick_parity, Lcr.enable_stick_parity,
      Lcr.set_parity, Lcr.set_stop_bits, Lcr.set_word_length,
      Lcr.is_parity_enabled, Lcr.is_stick_parity_enabled]

/-- Witness for C9 at a concrete state and a configuration carrying a
divisor. -/
theorem blockingUart_new_spec_witness :
    parity_mode (BlockingUart.new
      ⟨⟨WordLength.Bits5, StopBits.Bit2, true, Parity.Odd, true, true⟩,
        7, 9, 3, [], []⟩
      ⟨some 4660, ParityMode.Even, StopBits.Bit1, WordLength.Bits8⟩) =
      ParityMode.Even ∧
    (BlockingUart.new
      ⟨⟨WordLength.Bits5, StopBits.Bit2, true, Parity.Odd, true, true⟩,
        7, 9, 3, [], []⟩
      ⟨some 4660, ParityMode.Even, StopBits.Bit1, WordLength.Bits8⟩).dll =
      u16_low 4660 ∧
    (BlockingUart.new
      ⟨⟨WordLength.Bits5, StopBits.Bit2, true, Parity.Odd, true, true⟩,
        7, 9, 3, [], []⟩
      ⟨some 4660, ParityMode.Even, StopBits.Bit1, WordLength.Bits8⟩).dlh =
      u16_high 4660 :=
  ⟨(blockingUart_new_spec
      ⟨⟨WordLength.Bits5, StopBits.Bit2, true, Parity.Odd, true, true⟩,
        7, 9, 3, [], []⟩
      ⟨some 4660, ParityMode.Even, StopBits.Bit1, WordLength.Bits8⟩).1,
    ((blockingUart_new_spec
      ⟨⟨WordLength.Bits5, StopBits.Bit2, true, Parity.Odd, true, true⟩,
        7, 9, 3, [], []⟩
      ⟨some 4660, ParityMode.Even, StopBits.Bit1, WordLength.Bits8⟩).2.2.2.1
      4660 rfl).1,
    ((blockingUart_new_spec
      ⟨⟨WordLength.Bits5, StopBits.Bit2, true, Parity.Odd, true, true⟩,
        7, 9, 3, [], []⟩
      ⟨some 4660, ParityMode.Even, StopBits.Bit1, WordLength.Bits8⟩).2.2.2.1
      4660 rfl).2⟩

/-- Helper for C6: running `blocking_read` from poll index `i` when the
data-ready flag holds for exactly the next `m` polls (or the buffer is
exhausted first). -/
theorem blocking_read_go (ready : Nat → Bool) (rx : Nat → Nat)
    (buf : List Nat) :
    ∀ (i m : Nat), m ≤ buf.length →
      (∀ j, j < m → ready (i + j) = true) →
      (m < buf.length → ready (i + m) = false) →
      blocking_read ready rx i buf =
        ((List.range m).map (fun j => rx (i + j)) ++ buf.drop m, m,
          min (m + 1) buf.length) := by
  induction buf with
  | nil =>
      intro i m hm _ _
      have hm0 : m = 0 := by simpa using hm
      subst hm0
      simp [blocking_read]
  | cons ch rest ih =>
      intro i m hm hready hstop
      cases m with
      | zero =>
          have h0 : ready i = false := by simpa using hstop (by simp)
          simp [blocking_read, h0]
      | succ m =>
          have h0 : ready i = true := by
            simpa using hready 0 (Nat.succ_pos m)
          have ihr := ih (i + 1) m (by simpa using hm)
            (fun j hj => by
              have := hready (j + 1) (by omega)
              simpa [show i + (j + 1) = i + 1 + j by omega] using this)
            (fun hlt => by
              have := hstop (by simpa using Nat.succ_lt_succ hlt)
              simpa [show i + (m + 1) = i + 1 + m by omega] using this)
          have hfun : ((fun j => rx (i + j)) ∘ Nat.succ) =
              (fun j => rx (i + 1 + j)) := by
            funext j
            simp only [Function.comp_apply]
            exact congrArg rx (by omega)
          have hmap : (List.range (m + 1)).map (fun j => rx (i + j)) =
              rx i :: (List.range m).map (fun j => rx (i + 1 + j)) := by
            rw [List.range_succ_eq_map, List.map_cons, List.map_map, hfun]
            simp
          simp only [blocking_read, h0, if_true, ihr, List.drop_succ_cons,
            List.length_cons]
          rw [hmap, List.cons_append]
          simp only [Prod.mk.injEq, eq_self_iff_true, true_and]
          omega

/-- C6: with a status source reporting data-ready for exactly the first
`k` polls (`k ≤ buf.length`), `blocking_read` fills the first `k` slots
in order with the `k` bytes delivered by register A, leaves the
remaining slots unchanged, returns the count `k`, and performs exactly
`min (k + 1) buf.length` line-status polls — so it stops at the first
not-ready observation and zero readiness yields an immediate result of
0. -/
theorem blocking_read_spec (k : Nat) (rx : Nat → Nat) (buf : List Nat)
    (h : k ≤ buf.length) :
    blocking_read (fun i => decide (i < k)) rx 0 buf =
      ((List.range k).map rx ++ buf.drop k, k, min (k + 1) buf.length) := by
  have := blocking_read_go (fun i => decide (i < k)) rx buf 0 k h
    (fun j hj => by simpa using hj)
    (fun _ => by simp)
  simpa using this

/-- Witness for C6 with a 3-slot buffer and readiness for the first 2
polls. -/
theorem blocking_read_spec_witness :
    2 ≤ [10, 20, 30].length ∧
    blocking_read (fun i => decide (i < 2)) (fun i => 100 + i) 0
        [10, 20, 30] =
      ((List.range 2).map (fun i => 100 + i) ++ [10, 20, 30].drop 2, 2,
        min (2 + 1) [10, 20, 30].length) :=
  ⟨by decide,
    blocking_read_spec 2 (fun i => 100 + i) [10, 20, 30] (by decide)⟩

/-- Helper for C7: running `blocking_write` from poll index `i` when the
transmit-holding-empty flag holds for exactly the next `m` polls (or the
buffer is exhausted first). -/
theorem blocking_write_go (thre : Nat → Bool) (buf : List Nat) :
    ∀ (i m : Nat), m ≤ buf.length →
      (∀ j, j < m → thre (i + j) = true) →
      (m < buf.length → thre (i + m) = false) →
      blocking_write thre i buf = (buf.take m, m, min (m + 1) buf.length) := by
  induction buf with
  | nil =>
      intro i m hm _ _
      have hm0 : m = 0 := by simpa using hm
      subst hm0
      simp [blocking_write]
  | cons ch rest ih =>
      intro i m hm hready hstop
      cases m with
      | zero =>
          have h0 : thre i = false := by simpa using hstop (by simp)
          simp [blocking_write, h0]
      | succ m =>
          have h0 : thre i = true := by
            simpa using hready 0 (Nat.succ_pos m)
          have ihr := ih (i + 1) m (by simpa using hm)
            (fun j hj => by
              have := hready (j + 1) (by omega)
              simpa [show i + (j + 1) = i + 1 + j by omega] using this)
            (fun hlt => by
              have := hstop (by simpa using Nat.succ_lt_succ hlt)
              simpa [show i + (m + 1) = i + 1 + m by omega] using this)
          simp only [blocking_write, h0, if_true, ihr, List.take_succ_cons,
            List.length_cons, Prod.mk.injEq, eq_self_iff_true, true_and]
          omega

/-- C7: with a status source reporting transmit-holding-empty for
exactly the first `k` polls (`k ≤ buf.length`), `blocking_write` writes
exactly the first `k` buffer bytes to register A in order, returns the
count `k`, and performs exactly `min (k + 1) buf.length` line-status
polls — stopping at the first byte it cannot place. -/
theorem blocking_write_spec (k : Nat) (buf : List Nat)
    (h : k ≤ buf.length) :
    blocking_write (fun i => decide (i < k)) 0 buf =
      (buf.take k, k, min (k + 1) buf.length) := by
  have := blocking_write_go (fun i => decide (i < k)) buf 0 k h
    (fun j hj => by simpa using hj)
    (fun _ => by simp)
  simpa using this

/-- Witness for C7 with a 3-byte buffer and readiness for the first 2
polls. -/
theorem blocking_write_spec_witness :
    2 ≤ [10, 20, 30].length ∧
    blocking_write (fun i => decide (i < 2)) 0 [10, 20, 30] =
      ([10, 20, 30].take 2, 2, min (2 + 1) [10, 20, 30].length) :=
  ⟨by decide, blocking_write_spec 2 [10, 20, 30] (by decide)⟩

/-- Helper for C8: the spin loop of `blocking_flash` run from poll index
`i ≤ F` against the flag that becomes true at poll `F` exits after poll
`F`, having made `F + 1` polls in total, whenever at least `F + 1 - i`
units of fuel remain. -/
theorem blocking_flash_go (F : Nat) :
    ∀ (fuel i : Nat), i ≤ F → F + 1 - i ≤ fuel →
      blocking_flash (fun n => decide (F ≤ n)) fuel i = some (F + 1) := by
  intro fuel
  induction fuel with
  | zero => intro i hi hf; omega
  | succ fuel ih =>
      intro i hi hf
      by_cases hFi : F ≤ i
      · have hiF : i = F := Nat.le_antisymm hi hFi
        subst hiF
        simp [blocking_flash]
      · have hlt : i < F := Nat.lt_of_not_le hFi
        have hd : decide (F ≤ i) = false := by simpa using hFi
        simp only [blocking_flash, hd, if_false]
        exact ih (i + 1) (by omega) (by omega)

/-- C8: against a status source reporting transmit-empty as false for
the first `F` polls and true thereafter, `blocking_flash` terminates
exactly when the flag is observed: given fuel for at least `F + 1`
polls it returns after performing exactly `F + 1` line-status polls
(and by construction it writes no register on any path). -/
theorem blocking_flash_spec (F fuel : Nat) (h : F + 1 ≤ fuel) :
    blocking_flash (fun n => decide (F ≤ n)) fuel 0 = some (F + 1) :=
  blocking_flash_go F fuel 0 (Nat.zero_le F) (by omega)

/-- Witness for C8 with the flag turning true at the third poll. -/
theorem blocking_flash_spec_witness :
    2 + 1 ≤ 5 ∧
    blocking_flash (fun n => decide (2 ≤ n)) 5 0 = some (2 + 1) :=
  ⟨by decide, blocking_flash_spec 2 5 (by decide)⟩

end Uart16550
